import Mathlib

/-!
# Formal model of the formamail/sdk-node webhook verification core and client

This file embeds the computational core of the `formamail/sdk-node` SDK:

* the inbound webhook authenticity pipeline (`computeSignature`,
  `parseSignatureHeader`, freshness checking, constant-time candidate
  comparison, event decoding, `verifyWebhookSignature`); and
* the pure request-construction parts of the client (`Formamail`
  constructor defaults, `createClient`, `normalizeRecipients`,
  `EmailsResource.send` / `sendWithAttachment` payload construction).

The webhook module (`src/utils/webhooks.ts`) is not present in the
repository snapshot — only its re-exports, README and the design spec
describe it — so the webhook definitions below are modelled from the
spec (each such definition says so in its doc comment).  The client and
emails-resource definitions are translated directly from
`src/client.ts` and `src/resources/emails.ts`.

Machine integers do not occur in the TS source (JS numbers used as
integer seconds / milliseconds); they are modelled as `Nat`/`Int`.
SHA-256 words are `Nat` reduced modulo `2 ^ 32` explicitly.
-/

/-! ## Characters, decimal digits and hex encoding -/

/-- Whitespace characters tolerated by the signature-header parser. -/
def isWsChar (c : Char) : Bool :=
  c == ' ' || c == '\t' || c == '\n' || c == '\r'

/-- Decimal digit character for a value `0 ≤ n ≤ 9` (fallback `'x'`). -/
def digitChar (n : Nat) : Char :=
  if n = 0 then '0' else if n = 1 then '1' else if n = 2 then '2'
  else if n = 3 then '3' else if n = 4 then '4' else if n = 5 then '5'
  else if n = 6 then '6' else if n = 7 then '7' else if n = 8 then '8'
  else if n = 9 then '9' else 'x'

/-- Lowercase hexadecimal digit character for `0 ≤ n ≤ 15` (fallback `'x'`). -/
def hexChar (n : Nat) : Char :=
  if n < 10 then digitChar n
  else if n = 10 then 'a' else if n = 11 then 'b' else if n = 12 then 'c'
  else if n = 13 then 'd' else if n = 14 then 'e' else if n = 15 then 'f'
  else 'x'

/-- Decimal rendering of a natural number, fuel-based so that it reduces
by kernel computation.  `fuel` must exceed `n` (guaranteed by `natToDigits`). -/
def natToDigitsAux : Nat → Nat → List Char
  | 0, _ => []
  | fuel + 1, n =>
    if n < 10 then [digitChar n]
    else natToDigitsAux fuel (n / 10) ++ [digitChar (n % 10)]

/-- Decimal digit list of `n` (most significant first). -/
def natToDigits (n : Nat) : List Char := natToDigitsAux (n + 1) n

/-- Decimal rendering of a natural number as a string. -/
def natToString (n : Nat) : String := String.mk (natToDigits n)

/-- Parse a non-empty all-digit character list as a decimal natural
number; `none` on an empty list or any non-digit character. -/
def parseDecimal (cs : List Char) : Option Nat :=
  if cs.isEmpty then none
  else
    cs.foldl
      (fun acc c =>
        match acc with
        | none => none
        | some n => if c.isDigit then some (n * 10 + (c.toNat - 48)) else none)
      (some 0)

/-- Split a character list on a separator character.  Always returns at
least one (possibly empty) group. -/
def splitOnChar (sep : Char) : List Char → List (List Char)
  | [] => [[]]
  | c :: cs =>
    if c == sep then [] :: splitOnChar sep cs
    else
      match splitOnChar sep cs with
      | [] => [[c]]
      | g :: gs => (c :: g) :: gs

/-- Strip leading and trailing whitespace from a character list. -/
def trimChars (cs : List Char) : List Char :=
  ((cs.dropWhile isWsChar).reverse.dropWhile isWsChar).reverse

/-- Lowercase-hex encode a byte list (two characters per byte). -/
def bytesToHex (bs : List Nat) : String :=
  String.mk (bs.flatMap (fun b => [hexChar (b / 16), hexChar (b % 16)]))

/-! ## Webhook error taxonomy

Modelled from the spec: the error taxonomy of §7 of the design document
(the TS source raises `WebhookSignatureError` values with these kinds;
`src/utils/webhooks.ts` is absent from the snapshot). -/

/-- The distinct, inspectable verification failure kinds. -/
inductive WebhookError where
  | MissingSignatureHeader
  | MalformedSignatureHeader
  | TimestampOutOfTolerance
  | SignatureMismatch
  | InvalidPayloadJson
  | UnrecognizedEventType
deriving DecidableEq, Repr

/-! ## Signature header parsing -/

/-- Modelled from the spec: parsed representation of the wire header
`t=<unix-seconds>,v1=<hex-mac>[,v1=<hex-mac>...]` (§3 `SignatureHeader`).
`signatures` keeps the `v1` candidate MACs in header order. -/
structure SignatureHeader where
  timestamp : Nat
  signatures : List String
deriving DecidableEq, Repr

/-- Split one `key=value` element at its first `=`; `none` when the
element contains no `=`.  Key and value are whitespace-trimmed. -/
def parseElem (cs : List Char) : Option (List Char × List Char) :=
  let key := cs.takeWhile (fun c => c != '=')
  match cs.drop key.length with
  | '=' :: v => some (trimChars key, trimChars v)
  | _ => none

/-- Modelled from the spec: `parseSignatureHeader` of §4.1
(`src/utils/webhooks.ts` is absent from the snapshot).  Splits the
header on commas into `key=value` elements, tolerating whitespace;
recognizes one `t` element (decimal) and repeatable `v1` elements;
ignores unknown keys and keyless elements.  Empty/blank header ↦
`MissingSignatureHeader`; missing or non-numeric `t`, or no `v1`
element ↦ `MalformedSignatureHeader` (taxonomy of §7). -/
def parseSignatureHeader (header : String) : Except WebhookError SignatureHeader :=
  let cs := header.toList
  if trimChars cs = [] then .error .MissingSignatureHeader
  else
    let pairs := ((splitOnChar ',' cs).map trimChars).filterMap parseElem
    let tVals := (pairs.filter (fun p => p.1 == ['t'])).map (fun p => p.2)
    let sigs := (pairs.filter (fun p => p.1 == ['v', '1'])).map
      (fun p => String.mk p.2)
    match tVals.head? with
    | none => .error .MalformedSignatureHeader
    | some tcs =>
      match parseDecimal tcs with
      | none => .error .MalformedSignatureHeader
      | some t =>
        if sigs.isEmpty then .error .MalformedSignatureHeader
        else .ok { timestamp := t, signatures := sigs }

/-! ## JSON payloads and the event decoder -/

/-- Modelled from the spec: the "well-formed structured data" consumed by
the EventDecoder (§4.4) — a JSON value.  Numbers are modelled as
integers (the event payloads carry only string/integer fields). -/
inductive Json where
  | null
  | bool (b : Bool)
  | num (n : Int)
  | str (s : String)
  | arr (elems : List Json)
  | obj (fields : List (String × Json))

/-- Skip leading JSON whitespace. -/
def skipWs (cs : List Char) : List Char := cs.dropWhile isWsChar

/-- Translate a character following a backslash in a JSON string. -/
def escChar (c : Char) : Char :=
  if c = 'n' then '\n' else if c = 't' then '\t' else if c = 'r' then '\r' else c

/-- Parse a JSON string body after the opening quote, up to and past the
closing quote.  Fuel-based (fuel must exceed the input length). -/
def parseStringBody : Nat → List Char → Option (String × List Char)
  | 0, _ => none
  | fuel + 1, cs =>
    match cs with
    | [] => none
    | '"' :: rest => some ("", rest)
    | '\\' :: c :: rest =>
      (parseStringBody fuel rest).map
        (fun p => (String.singleton (escChar c) ++ p.1, p.2))
    | c :: rest =>
      (parseStringBody fuel rest).map
        (fun p => (String.singleton c ++ p.1, p.2))

/-- Parse an (optionally negative) run of decimal digits as an integer. -/
def parseNumBody (cs : List Char) : Option (Int × List Char) :=
  let p := match cs with
    | '-' :: r => (true, r)
    | _ => (false, cs)
  let digs := p.2.takeWhile Char.isDigit
  match parseDecimal digs with
  | none => none
  | some n => some (if p.1 then -(n : Int) else (n : Int), p.2.drop digs.length)

mutual

/-- Parse one JSON value (fuel-based recursive-descent). -/
def parseVal : Nat → List Char → Option (Json × List Char)
  | 0, _ => none
  | fuel + 1, cs =>
    match skipWs cs with
    | 'n' :: 'u' :: 'l' :: 'l' :: rest => some (.null, rest)
    | 't' :: 'r' :: 'u' :: 'e' :: rest => some (.bool true, rest)
    | 'f' :: 'a' :: 'l' :: 's' :: 'e' :: rest => some (.bool false, rest)
    | '"' :: rest =>
      (parseStringBody (rest.length + 1) rest).map (fun p => (.str p.1, p.2))
    | '[' :: rest =>
      match skipWs rest with
      | ']' :: rest2 => some (.arr [], rest2)
      | rest2 => parseArrItems fuel rest2 []
    | '{' :: rest =>
      match skipWs rest with
      | '}' :: rest2 => some (.obj [], rest2)
      | rest2 => parseObjItems fuel rest2 []
    | rest => (parseNumBody rest).map (fun p => (.num p.1, p.2))

/-- Parse the remaining items of a JSON array (after `[`, first item next). -/
def parseArrItems : Nat → List Char → List Json → Option (Json × List Char)
  | 0, _, _ => none
  | fuel + 1, cs, acc =>
    match parseVal fuel cs with
    | none => none
    | some (v, rest) =>
      match skipWs rest with
      | ',' :: rest2 => parseArrItems fuel rest2 (acc ++ [v])
      | ']' :: rest2 => some (.arr (acc ++ [v]), rest2)
      | _ => none

/-- Parse the remaining members of a JSON object (after `{`, first key next). -/
def parseObjItems : Nat → List Char → List (String × Json) → Option (Json × List Char)
  | 0, _, _ => none
  | fuel + 1, cs, acc =>
    match skipWs cs with
    | '"' :: rest =>
      match parseStringBody (rest.length + 1) rest with
      | none => none
      | some (k, rest2) =>
        match skipWs rest2 with
        | ':' :: rest3 =>
          match parseVal fuel rest3 with
          | none => none
          | some (v, rest4) =>
            match skipWs rest4 with
            | ',' :: rest5 => parseObjItems fuel rest5 (acc ++ [(k, v)])
            | '}' :: rest5 => some (.obj (acc ++ [(k, v)]), rest5)
            | _ => none
        | _ => none
    | _ => none

end

/-- Parse a whole string as a single JSON document (trailing whitespace
allowed, trailing garbage rejected). -/
def parseJson (s : String) : Option Json :=
  let cs := s.toList
  match parseVal (2 * cs.length + 2) cs with
  | some (j, rest) => if (skipWs rest).isEmpty then some j else none
  | none => none

/-- First field of an object with the given key (`none` on non-objects). -/
def Json.lookup : Json → String → Option Json
  | .obj fields, key => (fields.find? (fun p => p.1 == key)).map (fun p => p.2)
  | _, _ => none

/-- The closed set of webhook event types
(src/types/index.ts `WebhookEventType`). -/
inductive WebhookEventType where
  | emailSent
  | emailDelivered
  | emailOpened
  | emailClicked
  | emailBounced
  | unsubscribeCreated
deriving DecidableEq, Repr

/-- The wire discriminator accepted for each event type
(src/types/index.ts `WebhookEventType` string union). -/
def WebhookEventType.ofString? (s : String) : Option WebhookEventType :=
  if s = "email.sent" then some .emailSent
  else if s = "email.delivered" then some .emailDelivered
  else if s = "email.opened" then some .emailOpened
  else if s = "email.clicked" then some .emailClicked
  else if s = "email.bounced" then some .emailBounced
  else if s = "unsubscribe.created" then some .unsubscribeCreated
  else none

/-- Wire rendering of an event type. -/
def WebhookEventType.render : WebhookEventType → String
  | .emailSent => "email.sent"
  | .emailDelivered => "email.delivered"
  | .emailOpened => "email.opened"
  | .emailClicked => "email.clicked"
  | .emailBounced => "email.bounced"
  | .unsubscribeCreated => "unsubscribe.created"

/-- A verified, decoded webhook event (src/types/index.ts `WebhookEvent`):
common fields `id`, `type`, `timestamp` plus the event-specific data. -/
structure WebhookEvent where
  id : String
  type : WebhookEventType
  timestamp : String
  data : Json

/-- Modelled from the spec: the EventDecoder of §4.4
(`src/utils/webhooks.ts` is absent from the snapshot).  Unparsable
payload ↦ `InvalidPayloadJson`; absent or unrecognized `type`
discriminator ↦ `UnrecognizedEventType`; the required common fields
`id` and `timestamp` must be present as strings. -/
def decode (payload : String) : Except WebhookError WebhookEvent :=
  match parseJson payload with
  | none => .error .InvalidPayloadJson
  | some j =>
    match j.lookup "type" with
    | some (.str t) =>
      match WebhookEventType.ofString? t with
      | none => .error .UnrecognizedEventType
      | some ty =>
        match j.lookup "id", j.lookup "timestamp" with
        | some (.str i), some (.str ts) =>
          .ok { id := i, type := ty, timestamp := ts,
                data := (j.lookup "data").getD (.obj []) }
        | _, _ => .error .InvalidPayloadJson
    | some _ => .error .UnrecognizedEventType
    | none => .error .UnrecognizedEventType

/-! ## Constant-time comparison -/

/-- Modelled from the spec: the core loop of the constant-time byte
comparison (§4.4 step 4 / glossary).  Walks the whole candidate,
OR-accumulating the XOR of each byte pair (missing expected bytes
compare against the raw candidate byte).  Returns the accumulated
difference and the number of byte comparisons performed. -/
def ctLoop : List Char → List Char → Nat × Nat
  | _, [] => (0, 0)
  | [], c :: cs =>
    let p := ctLoop [] cs
    (p.1 ||| c.toNat, p.2 + 1)
  | e :: es, c :: cs =>
    let p := ctLoop es cs
    (p.1 ||| (e.toNat ^^^ c.toNat), p.2 + 1)

/-- Modelled from the spec: constant-time equality of the expected MAC
and one candidate — equal lengths and a zero accumulated difference
after scanning the full candidate. -/
def constantTimeEqual (expected candidate : String) : Bool :=
  expected.length == candidate.length
    && (ctLoop expected.toList candidate.toList).1 == 0

/-! ## SHA-256 and HMAC-SHA-256 -/

/-- Truncate to a 32-bit word. -/
def w32 (n : Nat) : Nat := n % 4294967296

/-- 32-bit right rotation. -/
def rotr (x n : Nat) : Nat := w32 ((x >>> n) ||| (x <<< (32 - n)))

/-- The eight SHA-256 working variables. -/
structure Sha256State where
  a : Nat
  b : Nat
  c : Nat
  d : Nat
  e : Nat
  f : Nat
  g : Nat
  h : Nat

/-- SHA-256 round constants. -/
def sha256K : List Nat :=
  [1116352408, 1899447441, 3049323471, 3921009573,
   961987163, 1508970993, 2453635748, 2870763221,
   3624381080, 310598401, 607225278, 1426881987,
   1925078388, 2162078206, 2614888103, 3248222580,
   3835390401, 4022224774, 264347078, 604807628,
   770255983, 1249150122, 1555081692, 1996064986,
   2554220882, 2821834349, 2952996808, 3210313671,
   3336571891, 3584528711, 113926993, 338241895,
   666307205, 773529912, 1294757372, 1396182291,
   1695183700, 1986661051, 2177026350, 2456956037,
   2730485921, 2820302411, 3259730800, 3345764771,
   3516065817, 3600352804, 4094571909, 275423344,
   430227734, 506948616, 659060556, 883997877,
   958139571, 1322822218, 1537002063, 1747873779,
   1955562222, 2024104815, 2227730452, 2361852424,
   2428436474, 2756734187, 3204031479, 3329325298]

/-- SHA-256 initial hash value. -/
def sha256Init : Sha256State :=
  ⟨1779033703, 3144134277, 1013904242, 2773480762,
   1359893119, 2600822924, 528734635, 1541459225⟩

/-- One SHA-256 compression round. -/
def sha256Round (s : Sha256State) (k w : Nat) : Sha256State :=
  let bigS1 := rotr s.e 6 ^^^ rotr s.e 11 ^^^ rotr s.e 25
  let ch := (s.e &&& s.f) ^^^ ((s.e ^^^ 4294967295) &&& s.g)
  let temp1 := w32 (s.h + bigS1 + ch + k + w)
  let bigS0 := rotr s.a 2 ^^^ rotr s.a 13 ^^^ rotr s.a 22
  let maj := (s.a &&& s.b) ^^^ (s.a &&& s.c) ^^^ (s.b &&& s.c)
  let temp2 := w32 (bigS0 + maj)
  ⟨w32 (temp1 + temp2), s.a, s.b, s.c, w32 (s.d + temp1), s.e, s.f, s.g⟩

/-- Big-endian 4-byte groups to 32-bit words. -/
def bytesToWords : List Nat → List Nat
  | b0 :: b1 :: b2 :: b3 :: rest =>
    (b0 * 16777216 + b1 * 65536 + b2 * 256 + b3) :: bytesToWords rest
  | _ => []

/-- Extend a 16-word block schedule by `n` further words. -/
def extendSchedule : List Nat → Nat → List Nat
  | ws, 0 => ws
  | ws, n + 1 =>
    let i := ws.length
    let w15 := ws.getD (i - 15) 0
    let w2 := ws.getD (i - 2) 0
    let w16 := ws.getD (i - 16) 0
    let w7 := ws.getD (i - 7) 0
    let s0 := rotr w15 7 ^^^ rotr w15 18 ^^^ (w15 >>> 3)
    let s1 := rotr w2 17 ^^^ rotr w2 19 ^^^ (w2 >>> 10)
    extendSchedule (ws ++ [w32 (w16 + s0 + w7 + s1)]) n

/-- Compress one 64-byte block into the running state. -/
def sha256Compress (st : Sha256State) (block : List Nat) : Sha256State :=
  let ws := extendSchedule (bytesToWords block) 48
  let fin := (sha256K.zip ws).foldl (fun s kw => sha256Round s kw.1 kw.2) st
  ⟨w32 (st.a + fin.a), w32 (st.b + fin.b), w32 (st.c + fin.c), w32 (st.d + fin.d),
   w32 (st.e + fin.e), w32 (st.f + fin.f), w32 (st.g + fin.g), w32 (st.h + fin.h)⟩

/-- SHA-256 padding: `0x80`, zeros to 56 mod 64, 8-byte big-endian bit length. -/
def sha256Pad (msg : List Nat) : List Nat :=
  let len := msg.length
  let bitLen := 8 * len
  let padZeros := (119 - len % 64) % 64
  msg ++ [128] ++ List.replicate padZeros 0 ++
    [bitLen / 72057594037927936 % 256, bitLen / 281474976710656 % 256,
     bitLen / 1099511627776 % 256, bitLen / 4294967296 % 256,
     bitLen / 16777216 % 256, bitLen / 65536 % 256,
     bitLen / 256 % 256, bitLen % 256]

/-- Split into 64-byte chunks (fuel must exceed the length). -/
def chunks64 : Nat → List Nat → List (List Nat)
  | 0, _ => []
  | _, [] => []
  | fuel + 1, l => l.take 64 :: chunks64 fuel (l.drop 64)

/-- Big-endian bytes of a 32-bit word. -/
def wordBytes (w : Nat) : List Nat :=
  [w / 16777216 % 256, w / 65536 % 256, w / 256 % 256, w % 256]

/-- SHA-256 digest (32 bytes) of a byte list. -/
def sha256 (msg : List Nat) : List Nat :=
  let padded := sha256Pad msg
  let fin := (chunks64 (padded.length + 1) padded).foldl sha256Compress sha256Init
  wordBytes fin.a ++ wordBytes fin.b ++ wordBytes fin.c ++ wordBytes fin.d ++
    wordBytes fin.e ++ wordBytes fin.f ++ wordBytes fin.g ++ wordBytes fin.h

/-- UTF-8 encoding of one character. -/
def utf8EncodeChar (c : Char) : List Nat :=
  let n := c.toNat
  if n < 128 then [n]
  else if n < 2048 then [192 + n / 64, 128 + n % 64]
  else if n < 65536 then [224 + n / 4096, 128 + n / 64 % 64, 128 + n % 64]
  else [240 + n / 262144, 128 + n / 4096 % 64, 128 + n / 64 % 64, 128 + n % 64]

/-- UTF-8 bytes of a string. -/
def strBytes (s : String) : List Nat := s.toList.flatMap utf8EncodeChar

/-- HMAC-SHA-256 (RFC 2104, block size 64). -/
def hmacSha256 (key msg : List Nat) : List Nat :=
  let k0 := if key.length > 64 then sha256 key else key
  let k := k0 ++ List.replicate (64 - k0.length) 0
  let ipadKey := k.map (fun b => b ^^^ 54)
  let opadKey := k.map (fun b => b ^^^ 92)
  sha256 (opadKey ++ sha256 (ipadKey ++ msg))

/-! ## The SignatureCodec, TimestampGuard and SignatureVerifier -/

/-- Modelled from the spec: `computeSignature(timestamp, payload, secret)`
of §4.1 (`src/utils/webhooks.ts` is absent from the snapshot).  Signs
the concatenation of the decimal timestamp, the fixed separator `"."`
and the exact raw payload with HMAC-SHA-256 keyed by `secret`,
hex-encoding the MAC in lowercase. -/
def computeSignature (timestamp : Nat) (payload secret : String) : String :=
  bytesToHex (hmacSha256 (strBytes secret)
    (strBytes (natToString timestamp ++ "." ++ payload)))

/-- Default freshness tolerance in seconds (spec §6). -/
def DEFAULT_TOLERANCE_SECONDS : Nat := 300

/-- Modelled from the spec: `checkFreshness(timestamp, tolerance, now)`
of §4.2 — valid iff `|now - timestamp| ≤ tolerance`; `now` is an
injected unix-seconds clock reading. -/
def checkFreshness (timestamp tolerance : Nat) (now : Int) : Bool :=
  decide ((now - (timestamp : Int)).natAbs ≤ tolerance)

/-- Modelled from the spec: the caller-supplied `VerificationRequest` of
§3 — raw payload, raw header value, shared secret, optional tolerance. -/
structure VerificationRequest where
  payload : String
  signature : String
  secret : String
  tolerance : Option Nat := none

/-- Modelled from the spec: the `verifyWebhookSignature` pipeline of
§4.3 (`src/utils/webhooks.ts` is absent from the snapshot): parse the
header, check freshness, recompute the expected MAC, accept iff any
candidate matches under constant-time comparison, then decode.  `now`
is the injected clock reading (unix seconds). -/
def verifyWebhookSignature (req : VerificationRequest) (now : Int) :
    Except WebhookError WebhookEvent :=
  match parseSignatureHeader req.signature with
  | .error e => .error e
  | .ok hdr =>
    if checkFreshness hdr.timestamp
        (req.tolerance.getD DEFAULT_TOLERANCE_SECONDS) now then
      let expected := computeSignature hdr.timestamp req.payload req.secret
      if hdr.signatures.any (fun c => constantTimeEqual expected c) then
        decode req.payload
      else .error .SignatureMismatch
    else .error .TimestampOutOfTolerance

/-- The well-formed header the signing side produces for timestamp `t`
(spec §6 wire format, single `v1` entry). -/
def signedHeader (t : Nat) (payload secret : String) : String :=
  "t=" ++ natToString t ++ ",v1=" ++ computeSignature t payload secret

/-! ## The client: configuration, defaults, `createClient`
(translated from `src/client.ts`) -/

/-- Client configuration (src/types/index.ts `FormamailConfig`).
`apiKey` is a plain string (`""` models a JS absent/empty key, both
falsy); `baseUrl`/`timeout` are optional with JS `||` defaulting. -/
structure FormamailConfig where
  apiKey : String
  baseUrl : Option String := none
  timeout : Option Nat := none
  headers : List (String × String) := []
deriving DecidableEq, Repr

/-- The configuration handed to `new HttpClient(...)` in the
`Formamail` constructor (src/client.ts lines 50–55). -/
structure HttpClientConfig where
  baseUrl : String
  apiKey : String
  timeout : Nat
  headers : List (String × String)
deriving DecidableEq, Repr

/-- JS `a || d` for an optional string: absent or empty falls back. -/
def jsOrString (o : Option String) (d : String) : String :=
  match o with
  | none => d
  | some s => if s = "" then d else s

/-- JS `a || d` for an optional number: absent or `0` falls back. -/
def jsOrNat (o : Option Nat) (d : Nat) : Nat :=
  match o with
  | none => d
  | some n => if n = 0 then d else n

/-- src/client.ts `DEFAULT_BASE_URL`. -/
def DEFAULT_BASE_URL : String := "https://api.formamail.com"

/-- src/client.ts `DEFAULT_TIMEOUT` (milliseconds). -/
def DEFAULT_TIMEOUT : Nat := 30000

/-- The constructed client: the three resources share the one
`HttpClient`; the model keeps the `HttpClient` configuration, which is
all the constructor computes (src/client.ts lines 45–60). -/
structure Formamail where
  http : HttpClientConfig
deriving DecidableEq, Repr

/-- The `Formamail` constructor (src/client.ts lines 45–60): throws
`Error('apiKey is required')` on a falsy `apiKey` before building
anything, otherwise builds the `HttpClient` with `||`-defaults. -/
def Formamail.create (config : FormamailConfig) : Except String Formamail :=
  if config.apiKey = "" then .error "apiKey is required"
  else
    .ok { http :=
      { baseUrl := jsOrString config.baseUrl DEFAULT_BASE_URL
        apiKey := config.apiKey
        timeout := jsOrNat config.timeout DEFAULT_TIMEOUT
        headers := config.headers } }

/-- src/client.ts `createClient`: `new Formamail(config)`. -/
def createClient (config : FormamailConfig) : Except String Formamail :=
  Formamail.create config

/-! ## The emails resource: recipient normalization and payload
construction (translated from `src/resources/emails.ts`) -/

/-- src/types/index.ts `EmailRecipient`. -/
structure EmailRecipient where
  email : String
  name : Option String := none
deriving DecidableEq, Repr

/-- One element of a `RecipientInput`: a bare string or an object. -/
inductive RecipientItem where
  | str (s : String)
  | obj (r : EmailRecipient)
deriving DecidableEq, Repr

/-- src/types/index.ts `RecipientInput`:
`string | EmailRecipient | (string | EmailRecipient)[]`. -/
inductive RecipientInput where
  | single (item : RecipientItem)
  | array (items : List RecipientItem)
deriving DecidableEq, Repr

/-- Normalization of one element: a bare string becomes `{ email }`. -/
def normalizeItem : RecipientItem → EmailRecipient
  | .str s => { email := s }
  | .obj r => r

/-- src/resources/emails.ts `normalizeRecipients` (lines 22–27):
wrap a non-array input into a one-element array, then map each bare
string to an `{ email }` object. -/
def normalizeRecipients : RecipientInput → List EmailRecipient
  | .single item => [normalizeItem item]
  | .array items => items.map normalizeItem

/-- src/types/index.ts `Attachment`. -/
structure Attachment where
  type : String
  templateId : String
  fileName : Option String := none
  vars : Option (List (String × String)) := none
deriving DecidableEq, Repr

/-- The email fields of src/types/index.ts `SendEmailOptions`
(template variables and metadata modelled as association lists). -/
structure SendEmailOptions where
  templateId : String
  -- the TS field is named `to`, a reserved token in Lean
  to_ : RecipientInput
  cc : Option RecipientInput := none
  bcc : Option RecipientInput := none
  version : Option String := none
  senderEmail : Option String := none
  senderId : Option String := none
  fromName : Option String := none
  replyTo : Option String := none
  vars : Option (List (String × String)) := none
  priority : Option String := none
  scheduledAt : Option String := none
  headers : Option (List (String × String)) := none
  tags : Option (List String) := none
  metadata : Option (List (String × String)) := none
  attachments : Option (List Attachment) := none
deriving DecidableEq, Repr

/-- The JSON body `EmailsResource.send` posts to `/api/v1/emails/send`
(src/resources/emails.ts lines 59–76): recipients normalized, each
optional field included only when present (`...(x && { x })`). -/
structure SendEmailPayload where
  templateId : String
  -- the TS field is named `to`, a reserved token in Lean
  to_ : List EmailRecipient
  cc : Option (List EmailRecipient)
  bcc : Option (List EmailRecipient)
  version : Option String
  senderEmail : Option String
  senderId : Option String
  fromName : Option String
  replyTo : Option String
  vars : Option (List (String × String))
  priority : Option String
  scheduledAt : Option String
  headers : Option (List (String × String))
  tags : Option (List String)
  metadata : Option (List (String × String))
  attachments : Option (List Attachment)
deriving DecidableEq, Repr

/-- The request issued by `EmailsResource.send` (path and body of the
`http.post` call, src/resources/emails.ts lines 57–83). -/
structure EmailRequest where
  path : String
  body : SendEmailPayload
deriving DecidableEq, Repr

/-- src/resources/emails.ts `send` (lines 57–83), up to the HTTP call:
the request it issues. -/
def sendRequest (options : SendEmailOptions) : EmailRequest :=
  { path := "/api/v1/emails/send"
    body :=
      { templateId := options.templateId
        to_ := normalizeRecipients options.to_
        cc := options.cc.map normalizeRecipients
        bcc := options.bcc.map normalizeRecipients
        version := options.version
        senderEmail := options.senderEmail
        senderId := options.senderId
        fromName := options.fromName
        replyTo := options.replyTo
        vars := options.vars
        priority := options.priority
        scheduledAt := options.scheduledAt
        headers := options.headers
        tags := options.tags
        metadata := options.metadata
        attachments := options.attachments } }

/-- The options of `EmailsResource.sendWithAttachment`
(src/resources/emails.ts lines 111–122): the email fields minus
`attachments`, plus the attachment-generation fields. -/
structure SendWithAttachmentOptions where
  email : SendEmailOptions
  attachmentTemplateId : String
  attachmentType : String
  fileName : Option String := none
  attachmentVariables : Option (List (String × String)) := none
deriving DecidableEq, Repr

/-- src/resources/emails.ts `sendWithAttachment` (lines 111–136):
destructures the attachment fields and calls `send` with the remaining
email options plus a single generated attachment. -/
def sendWithAttachmentRequest (options : SendWithAttachmentOptions) : EmailRequest :=
  sendRequest
    { options.email with
      attachments := some
        [{ type := options.attachmentType
           templateId := options.attachmentTemplateId
           fileName := options.fileName
           vars := options.attachmentVariables }] }

/-! ## Helper lemmas: bitwise facts and characters -/

theorem nat_lor_eq_zero {a b : Nat} (h : a ||| b = 0) : a = 0 ∧ b = 0 := by
  constructor <;> apply Nat.eq_of_testBit_eq <;> intro i
  · have := congrArg (fun n => Nat.testBit n i) h
    simp only [Nat.testBit_lor] at this
    simp only [Nat.zero_testBit] at this ⊢
    exact (Bool.or_eq_false_iff.mp this).1
  · have := congrArg (fun n => Nat.testBit n i) h
    simp only [Nat.testBit_lor] at this
    simp only [Nat.zero_testBit] at this ⊢
    exact (Bool.or_eq_false_iff.mp this).2

theorem char_toNat_inj {c d : Char} (h : c.toNat = d.toNat) : c = d :=
  Char.ext (UInt32.ext h)

/-! ## Helper lemmas: the constant-time comparison loop -/

/-- The comparison loop performs exactly one byte comparison per
candidate byte — its step count is the candidate length, whatever the
contents of either side. -/
theorem ctLoop_steps (e c : List Char) : (ctLoop e c).2 = c.length := by
  induction c generalizing e with
  | nil => cases e <;> rfl
  | cons x xs ih =>
    cases e with
    | nil => simpa [ctLoop] using ih []
    | cons y ys => simpa [ctLoop] using ih ys

/-- Zero accumulated difference on equal-length inputs means equality. -/
theorem ctLoop_diff_eq_zero_iff (e c : List Char) (hlen : e.length = c.length) :
    (ctLoop e c).1 = 0 ↔ e = c := by
  induction c generalizing e with
  | nil =>
    cases e with
    | nil => simp [ctLoop]
    | cons y ys => simp at hlen
  | cons x xs ih =>
    cases e with
    | nil => simp at hlen
    | cons y ys =>
      simp only [List.length_cons, Nat.add_right_cancel_iff] at hlen
      constructor
      · intro h
        simp only [ctLoop] at h
        obtain ⟨h1, h2⟩ := nat_lor_eq_zero h
        have hy : y = x := char_toNat_inj (Nat.xor_eq_zero.mp h2)
        have : ys = xs := (ih ys hlen).mp h1
        rw [hy, this]
      · rintro h
        injection h with h1 h2
        subst h1; subst h2
        simp only [ctLoop, Nat.xor_self, Nat.or_zero]
        exact (ih ys hlen).mpr rfl

/-- `constantTimeEqual` decides string equality. -/
theorem constantTimeEqual_iff (a b : String) :
    constantTimeEqual a b = true ↔ a = b := by
  unfold constantTimeEqual
  simp only [Bool.and_eq_true, beq_iff_eq]
  constructor
  · rintro ⟨hlen, hdiff⟩
    have : a.toList = b.toList := (ctLoop_diff_eq_zero_iff _ _ hlen).mp hdiff
    calc a = String.mk a.toList := rfl
      _ = String.mk b.toList := by rw [this]
      _ = b := rfl
  · rintro rfl
    refine ⟨rfl, ?_⟩
    exact (ctLoop_diff_eq_zero_iff _ _ rfl).mpr rfl

theorem constantTimeEqual_refl (a : String) : constantTimeEqual a a = true :=
  (constantTimeEqual_iff a a).mpr rfl

/-! ## Helper lemmas: digits, hex characters and decimal round trip -/

theorem digitChar_props : ∀ n, n < 10 →
    (digitChar n).isDigit = true ∧ (digitChar n).toNat - 48 = n ∧
    isWsChar (digitChar n) = false ∧ digitChar n ≠ ',' ∧ digitChar n ≠ '=' := by
  decide

theorem hexChar_large (n : Nat) (h : 16 ≤ n) : hexChar n = 'x' := by
  unfold hexChar digitChar
  rw [if_neg (by omega), if_neg (by omega), if_neg (by omega), if_neg (by omega),
    if_neg (by omega), if_neg (by omega), if_neg (by omega)]

theorem hexChar_props (n : Nat) :
    isWsChar (hexChar n) = false ∧ hexChar n ≠ ',' ∧ hexChar n ≠ '=' := by
  rcases Nat.lt_or_ge n 16 with h | h
  · revert n h
    decide
  · rw [hexChar_large n h]
    decide

theorem natToDigitsAux_mem {fuel n : Nat} {c : Char}
    (h : c ∈ natToDigitsAux fuel n) : ∃ d, d < 10 ∧ c = digitChar d := by
  induction fuel generalizing n with
  | zero => simp [natToDigitsAux] at h
  | succ fuel ih =>
    unfold natToDigitsAux at h
    split at h
    · next hn =>
      simp only [List.mem_singleton] at h
      exact ⟨n, hn, h⟩
    · next hn =>
      rcases List.mem_append.mp h with h' | h'
      · exact ih h'
      · simp only [List.mem_singleton] at h'
        exact ⟨n % 10, Nat.mod_lt _ (by omega), h'⟩

theorem natToDigits_mem {n : Nat} {c : Char} (h : c ∈ natToDigits n) :
    ∃ d, d < 10 ∧ c = digitChar d :=
  natToDigitsAux_mem h

theorem natToDigitsAux_ne_nil {fuel n : Nat} (h : 0 < fuel) :
    natToDigitsAux fuel n ≠ [] := by
  cases fuel with
  | zero => omega
  | succ fuel =>
    unfold natToDigitsAux
    split
    · simp
    · simp

/-- The fold underlying `parseDecimal` inverts `natToDigitsAux`. -/
theorem parseDecimal_fold_natToDigitsAux {fuel n : Nat} (hfuel : n < fuel) :
    ∀ a : Nat,
      List.foldl
        (fun acc c =>
          match acc with
          | none => none
          | some m => if c.isDigit then some (m * 10 + (c.toNat - 48)) else none)
        (some a) (natToDigitsAux fuel n)
      = some (a * 10 ^ (natToDigitsAux fuel n).length + n) := by
  induction fuel generalizing n with
  | zero => omega
  | succ fuel ih =>
    intro a
    unfold natToDigitsAux
    split
    · next hn =>
      obtain ⟨hdig, hval, -⟩ := digitChar_props n hn
      simp [List.foldl, hdig, hval]
    · next hn =>
      push_neg at hn
      have hdiv : n / 10 < n := Nat.div_lt_self (by omega) (by omega)
      have hdivfuel : n / 10 < fuel := by omega
      rw [List.foldl_append]
      rw [ih hdivfuel a]
      obtain ⟨hdig, hval, -⟩ := digitChar_props (n % 10) (Nat.mod_lt _ (by omega))
      simp only [List.foldl, hdig, if_true, hval, List.length_append,
        List.length_singleton]
      congr 1
      have hmod := Nat.div_add_mod n 10
      rw [Nat.pow_succ]
      ring_nf
      omega

/-- Decimal round trip: parsing the rendering of `n` yields `n`. -/
theorem parseDecimal_natToDigits (n : Nat) :
    parseDecimal (natToDigits n) = some n := by
  unfold parseDecimal
  rw [if_neg (by simpa using @natToDigitsAux_ne_nil (n + 1) n (by omega))]
  simpa using @parseDecimal_fold_natToDigitsAux (n + 1) n (by omega) 0


/-! ## Helper lemmas: header splitting, trimming and parsing -/

theorem splitOnChar_cons_sep (sep : Char) (l : List Char) :
    splitOnChar sep (sep :: l) = [] :: splitOnChar sep l := by
  simp [splitOnChar]

theorem splitOnChar_ne_nil (sep : Char) (l : List Char) :
    splitOnChar sep l ≠ [] := by
  cases l with
  | nil => simp [splitOnChar]
  | cons x xs =>
    unfold splitOnChar
    split
    · simp
    · split
      · simp
      · simp

theorem splitOnChar_cons_ne (sep x : Char) (l : List Char) (hx : x ≠ sep) :
    ∃ g gs, splitOnChar sep l = g :: gs ∧
      splitOnChar sep (x :: l) = (x :: g) :: gs := by
  obtain ⟨g, gs, hgl⟩ : ∃ g gs, splitOnChar sep l = g :: gs := by
    cases hl : splitOnChar sep l with
    | nil => exact absurd hl (splitOnChar_ne_nil sep l)
    | cons g gs => exact ⟨g, gs, rfl⟩
  refine ⟨g, gs, hgl, ?_⟩
  unfold splitOnChar
  rw [if_neg (by simpa using hx), hgl]

theorem splitOnChar_no_sep {sep : Char} {a : List Char}
    (h : ∀ c ∈ a, c ≠ sep) : splitOnChar sep a = [a] := by
  induction a with
  | nil => rfl
  | cons x xs ih =>
    have hx : x ≠ sep := h x (List.mem_cons_self x xs)
    have hxs : ∀ c ∈ xs, c ≠ sep := fun c hc => h c (List.mem_cons_of_mem x hc)
    obtain ⟨g, gs, hgl, hcons⟩ := splitOnChar_cons_ne sep x xs hx
    rw [hcons]
    rw [ih hxs] at hgl
    injection hgl with h1 h2
    rw [h1, h2]

theorem splitOnChar_append {sep : Char} {a b : List Char}
    (h : ∀ c ∈ a, c ≠ sep) :
    splitOnChar sep (a ++ sep :: b) = a :: splitOnChar sep b := by
  induction a with
  | nil => simpa using splitOnChar_cons_sep sep b
  | cons x xs ih =>
    have hx : x ≠ sep := h x (List.mem_cons_self x xs)
    have hxs : ∀ c ∈ xs, c ≠ sep := fun c hc => h c (List.mem_cons_of_mem x hc)
    obtain ⟨g, gs, hgl, hcons⟩ :=
      splitOnChar_cons_ne sep x (xs ++ sep :: b) hx
    rw [List.cons_append, hcons]
    rw [ih hxs] at hgl
    injection hgl with h1 h2
    rw [h1, h2]

theorem dropWhile_of_all_false {p : Char → Bool} {l : List Char}
    (h : ∀ c ∈ l, p c = false) : l.dropWhile p = l := by
  cases l with
  | nil => rfl
  | cons x xs =>
    rw [List.dropWhile_cons, h x (List.mem_cons_self x xs)]
    simp

theorem trimChars_of_no_ws {l : List Char}
    (h : ∀ c ∈ l, isWsChar c = false) : trimChars l = l := by
  unfold trimChars
  rw [dropWhile_of_all_false h,
    dropWhile_of_all_false (fun c hc => h c (List.mem_reverse.mp hc)),
    List.reverse_reverse]

theorem trimChars_ne_nil {l : List Char} {x : Char} (hx : x ∈ l)
    (hxw : isWsChar x = false) : trimChars l ≠ [] := by
  intro hcontra
  unfold trimChars at hcontra
  have h1 : (l.dropWhile isWsChar).reverse.dropWhile isWsChar = [] := by
    simpa using congrArg List.reverse hcontra
  have h2 : ∀ c ∈ l.dropWhile isWsChar, isWsChar c = true := by
    intro c hc
    exact List.dropWhile_eq_nil_iff.mp h1 c (List.mem_reverse.mpr hc)
  have h5 : ∀ c ∈ l, isWsChar c = true := by
    intro c hc
    rw [← @List.takeWhile_append_dropWhile _ isWsChar l] at hc
    rcases List.mem_append.mp hc with hc' | hc'
    · exact List.mem_takeWhile_imp hc'
    · exact h2 c hc'
  rw [h5 x hx] at hxw
  exact Bool.noConfusion hxw

/-- `parseElem` on a `t=<value>` element with a whitespace-free value. -/
theorem parseElem_t {v : List Char} (hv : ∀ c ∈ v, isWsChar c = false) :
    parseElem ('t' :: '=' :: v) = some (['t'], v) := by
  have h1 : ('t' :: '=' :: v).takeWhile (fun c => c != '=') = ['t'] := by
    rw [List.takeWhile_cons, if_pos (by decide), List.takeWhile_cons,
      if_neg (by decide)]
  unfold parseElem
  rw [h1]
  show some (trimChars ['t'], trimChars v) = some (['t'], v)
  rw [trimChars_of_no_ws hv]
  rfl

/-- `parseElem` on a `v1=<value>` element with a whitespace-free value. -/
theorem parseElem_v1 {v : List Char} (hv : ∀ c ∈ v, isWsChar c = false) :
    parseElem ('v' :: '1' :: '=' :: v) = some (['v', '1'], v) := by
  have h1 : ('v' :: '1' :: '=' :: v).takeWhile (fun c => c != '=') = ['v', '1'] := by
    rw [List.takeWhile_cons, if_pos (by decide), List.takeWhile_cons,
      if_pos (by decide), List.takeWhile_cons, if_neg (by decide)]
  unfold parseElem
  rw [h1]
  show some (trimChars ['v', '1'], trimChars v) = some (['v', '1'], v)
  rw [trimChars_of_no_ws hv]
  rfl

theorem string_mk_toList (s : String) : String.mk s.toList = s := rfl

/-- Characters of a decimal rendering are never whitespace, commas or
equals signs. -/
theorem natToDigits_clean {t : Nat} :
    ∀ c ∈ natToDigits t, isWsChar c = false ∧ c ≠ ',' ∧ c ≠ '=' := by
  intro c hc
  obtain ⟨d, hd10, rfl⟩ := natToDigits_mem hc
  obtain ⟨-, -, hws, hcomma, heq⟩ := digitChar_props d hd10
  exact ⟨hws, hcomma, heq⟩

/-- Round trip of the signing-side header through the parser: a header
`t=<decimal t>,v1=<mac>` parses to timestamp `t` and the single
candidate `mac`, provided the MAC contains no whitespace, comma or
equals sign (true of hex-encoded MACs). -/
theorem parseSignatureHeader_signed (t : Nat) (mac : String)
    (hmac : ∀ c ∈ mac.toList, isWsChar c = false ∧ c ≠ ',' ∧ c ≠ '=') :
    parseSignatureHeader ("t=" ++ natToString t ++ ",v1=" ++ mac)
      = .ok ⟨t, [mac]⟩ := by
  have hd := @natToDigits_clean t
  have hlist : ("t=" ++ natToString t ++ ",v1=" ++ mac).toList
      = ('t' :: '=' :: natToDigits t) ++ ',' :: ('v' :: '1' :: '=' :: mac.toList) := by
    have h0 : ("t=" ++ natToString t ++ ",v1=" ++ mac).toList
        = ((['t', '='] ++ natToDigits t) ++ [',', 'v', '1', '=']) ++ mac.toList := rfl
    rw [h0]
    simp
  have ha : ∀ c ∈ 't' :: '=' :: natToDigits t, c ≠ ',' := by
    intro c hc
    rcases List.mem_cons.mp hc with rfl | hc
    · decide
    rcases List.mem_cons.mp hc with rfl | hc
    · decide
    · exact (hd c hc).2.1
  have hb : ∀ c ∈ 'v' :: '1' :: '=' :: mac.toList, c ≠ ',' := by
    intro c hc
    rcases List.mem_cons.mp hc with rfl | hc
    · decide
    rcases List.mem_cons.mp hc with rfl | hc
    · decide
    rcases List.mem_cons.mp hc with rfl | hc
    · decide
    · exact (hmac c hc).2.1
  have hanws : ∀ c ∈ 't' :: '=' :: natToDigits t, isWsChar c = false := by
    intro c hc
    rcases List.mem_cons.mp hc with rfl | hc
    · decide
    rcases List.mem_cons.mp hc with rfl | hc
    · decide
    · exact (hd c hc).1
  have hbnws : ∀ c ∈ 'v' :: '1' :: '=' :: mac.toList, isWsChar c = false := by
    intro c hc
    rcases List.mem_cons.mp hc with rfl | hc
    · decide
    rcases List.mem_cons.mp hc with rfl | hc
    · decide
    rcases List.mem_cons.mp hc with rfl | hc
    · decide
    · exact (hmac c hc).1
  have hdnws : ∀ c ∈ natToDigits t, isWsChar c = false := fun c hc => (hd c hc).1
  have hmnws : ∀ c ∈ mac.toList, isWsChar c = false := fun c hc => (hmac c hc).1
  simp only [parseSignatureHeader]
  rw [hlist]
  rw [if_neg (@trimChars_ne_nil _ 't' (by simp) (by decide))]
  rw [splitOnChar_append ha, splitOnChar_no_sep hb]
  rw [List.map_cons, List.map_cons, List.map_nil,
    trimChars_of_no_ws hanws, trimChars_of_no_ws hbnws]
  rw [List.filterMap_cons, List.filterMap_cons, List.filterMap_nil,
    parseElem_t hdnws, parseElem_v1 hmnws]
  simp only [List.filter_cons, List.filter_nil]
  norm_num
  rw [parseDecimal_natToDigits t]

/-- Hex-encoded MACs contain no whitespace, comma or equals sign. -/
theorem computeSignature_clean (t : Nat) (p s : String) :
    ∀ c ∈ (computeSignature t p s).toList,
      isWsChar c = false ∧ c ≠ ',' ∧ c ≠ '=' := by
  intro c hc
  have hc' : c ∈ (hmacSha256 (strBytes s)
      (strBytes (natToString t ++ "." ++ p))).flatMap
      (fun b => [hexChar (b / 16), hexChar (b % 16)]) := hc
  obtain ⟨b, -, hb⟩ := List.mem_flatMap.mp hc'
  rcases List.mem_cons.mp hb with rfl | hb
  · exact hexChar_props _
  rcases List.mem_cons.mp hb with rfl | hb
  · exact hexChar_props _
  · simp at hb

/-- A correctly signed, fresh request passes the header, freshness and
MAC stages and hands the payload to the decoder. -/
theorem verify_signed_ok (p s : String) (t : Nat) (tol? : Option Nat) (now : Int)
    (hfresh : (now - (t : Int)).natAbs ≤ tol?.getD DEFAULT_TOLERANCE_SECONDS) :
    verifyWebhookSignature ⟨p, signedHeader t p s, s, tol?⟩ now = decode p := by
  have hparse : parseSignatureHeader (signedHeader t p s)
      = .ok ⟨t, [computeSignature t p s]⟩ := by
    unfold signedHeader
    exact parseSignatureHeader_signed t _ (computeSignature_clean t p s)
  have hfreshb : checkFreshness t (tol?.getD DEFAULT_TOLERANCE_SECONDS) now = true := by
    unfold checkFreshness
    exact decide_eq_true hfresh
  simp only [verifyWebhookSignature, hparse]
  rw [hfreshb]
  simp only [List.any_cons, List.any_nil, constantTimeEqual_refl, Bool.or_false,
    if_true]

/-- A correctly signed but stale (or future-dated) request fails the
freshness stage with `TimestampOutOfTolerance`. -/
theorem verify_signed_stale (p s : String) (t : Nat) (tol? : Option Nat) (now : Int)
    (hstale : ¬ (now - (t : Int)).natAbs ≤ tol?.getD DEFAULT_TOLERANCE_SECONDS) :
    verifyWebhookSignature ⟨p, signedHeader t p s, s, tol?⟩ now
      = .error .TimestampOutOfTolerance := by
  have hparse : parseSignatureHeader (signedHeader t p s)
      = .ok ⟨t, [computeSignature t p s]⟩ := by
    unfold signedHeader
    exact parseSignatureHeader_signed t _ (computeSignature_clean t p s)
  have hfreshb : checkFreshness t (tol?.getD DEFAULT_TOLERANCE_SECONDS) now = false := by
    unfold checkFreshness
    exact decide_eq_false hstale
  simp only [verifyWebhookSignature, hparse]
  rw [hfreshb]
  simp

/-- The decoder never reports a timestamp failure. -/
theorem decode_ne_timestamp (p : String) :
    decode p ≠ .error .TimestampOutOfTolerance := by
  unfold decode
  repeat' split
  all_goals simp

/-- The signature-candidate scan succeeds exactly when the expected MAC
is among the parsed candidates. -/
theorem any_ct_iff (expected : String) (sigs : List String) :
    (sigs.any fun c => constantTimeEqual expected c) = true ↔ expected ∈ sigs := by
  rw [List.any_eq_true]
  constructor
  · rintro ⟨c, hc, hct⟩
    rw [(constantTimeEqual_iff _ _).mp hct]
    exact hc
  · intro hm
    exact ⟨expected, hm, constantTimeEqual_refl expected⟩

/-- Every byte of a word serialization is below 256. -/
theorem wordBytes_lt (w : Nat) : ∀ b ∈ wordBytes w, b < 256 := by
  intro b hb
  simp [wordBytes] at hb
  rcases hb with rfl | rfl | rfl | rfl <;> exact Nat.mod_lt _ (by norm_num)

/-- A SHA-256 digest is 32 bytes long. -/
theorem sha256_length (m : List Nat) : (sha256 m).length = 32 := by
  unfold sha256
  simp [wordBytes]

/-- Every byte of a SHA-256 digest is below 256. -/
theorem sha256_bytes_lt (m : List Nat) : ∀ b ∈ sha256 m, b < 256 := by
  intro b hb
  unfold sha256 at hb
  simp only [List.mem_append] at hb
  rcases hb with ((((((hb | hb) | hb) | hb) | hb) | hb) | hb) | hb <;>
    exact wordBytes_lt _ b hb

/-- Hex encoding emits two characters per byte. -/
theorem bytesToHex_length (bs : List Nat) : (bytesToHex bs).length = 2 * bs.length := by
  show (bs.flatMap fun b => [hexChar (b / 16), hexChar (b % 16)]).length = 2 * bs.length
  induction bs with
  | nil => rfl
  | cons b bs ih =>
    simp only [List.flatMap_cons, List.length_append, ih, List.length_cons,
      List.length_nil]
    omega

/-- Lowercase hexadecimal digit predicate. -/
def isLowerHexDigit (c : Char) : Bool :=
  c.isDigit || (c == 'a' || c == 'b' || c == 'c' || c == 'd' || c == 'e' || c == 'f')

theorem hexChar_isLowerHex : ∀ n, n < 16 → isLowerHexDigit (hexChar n) = true := by
  decide

/-- A recognized wire discriminator is the rendering of its event type. -/
theorem ofString_render {t : String} {ty : WebhookEventType}
    (h : WebhookEventType.ofString? t = some ty) : t = ty.render := by
  unfold WebhookEventType.ofString? at h
  split_ifs at h with h1 h2 h3 h4 h5 h6 <;>
    (injection h with h'; subst h'; simp [WebhookEventType.render, *])

/-! ## Shared concrete samples -/

/-- A well-formed `email.sent` event payload. -/
def samplePayload : String :=
  "\x7b\"id\":\"evt_1\",\"type\":\"email.sent\",\"timestamp\":\"2025-01-01\",\"data\":\x7b\x7d\x7d"

/-- The event `samplePayload` decodes to. -/
def sampleEvent : WebhookEvent :=
  { id := "evt_1", type := .emailSent, timestamp := "2025-01-01", data := .obj [] }

/-- A well-formed payload whose `type` discriminator is unknown. -/
def unknownTypePayload : String :=
  "\x7b\"id\":\"e\",\"type\":\"unknown.thing\",\"timestamp\":\"1\"\x7d"

/-! ## The claims -/

set_option maxRecDepth 1000000

/-- C1 (counterexample): the round-trip property fails as universally
stated — the payload `"x"` carries a valid, fresh signature, yet
`verifyWebhookSignature` fails with `InvalidPayloadJson` instead of
succeeding, because `"x"` is not a decodable event. -/
theorem C1_round_trip_counterexample :
    verifyWebhookSignature
      ⟨"x", signedHeader 1000 "x" "s", "s", none⟩ 1000
      = .error .InvalidPayloadJson := by
  rw [verify_signed_ok "x" "s" 1000 none 1000 (by decide)]
  rfl

/-- C1 (amended): for every payload `p` that decodes to an event `e`,
every secret `s`, and every timestamp `t` within the effective
tolerance of `now`, verifying
`{payload := p, signature := "t=" ++ t ++ ",v1=" ++ computeSignature t p s, secret := s}`
succeeds and returns `e`, the event decoded from `p`. -/
theorem C1_round_trip (p s : String) (t : Nat) (tol? : Option Nat) (now : Int)
    (e : WebhookEvent)
    (hfresh : (now - (t : Int)).natAbs ≤ tol?.getD DEFAULT_TOLERANCE_SECONDS)
    (hdec : decode p = .ok e) :
    verifyWebhookSignature ⟨p, signedHeader t p s, s, tol?⟩ now = .ok e := by
  rw [verify_signed_ok p s t tol? now hfresh, hdec]

/-- C1 (witness): the amended round trip at a concrete request. -/
theorem C1_round_trip_witness :
    verifyWebhookSignature
      ⟨samplePayload, signedHeader 1700000000 samplePayload "whsec", "whsec", none⟩
      1700000000 = .ok sampleEvent :=
  C1_round_trip samplePayload "whsec" 1700000000 none 1700000000 sampleEvent
    (by decide) (by rfl)

/-- C2: `checkFreshness` accepts exactly the timestamps with
`|now - timestamp| ≤ tolerance` (rejecting both too-old and
too-far-in-the-future ones); with the default tolerance of 300, a
correctly signed request built at `now - 301` fails with
`TimestampOutOfTolerance`, while one built at `now - 299` passes the
freshness stage, and succeeds whenever its payload decodes. -/
theorem C2_freshness :
    (∀ (t tol : Nat) (now : Int),
      checkFreshness t tol now = true ↔ (now - (t : Int)).natAbs ≤ tol) ∧
    (∀ p s : String,
      verifyWebhookSignature ⟨p, signedHeader 999699 p s, s, none⟩ 1000000
        = .error .TimestampOutOfTolerance) ∧
    (∀ p s : String,
      verifyWebhookSignature ⟨p, signedHeader 999701 p s, s, none⟩ 1000000
        ≠ .error .TimestampOutOfTolerance) ∧
    (∀ (p s : String) (e : WebhookEvent), decode p = .ok e →
      verifyWebhookSignature ⟨p, signedHeader 999701 p s, s, none⟩ 1000000
        = .ok e) := by
  refine ⟨?_, ?_, ?_, ?_⟩
  · intro t tol now
    unfold checkFreshness
    constructor
    · exact of_decide_eq_true
    · exact decide_eq_true
  · intro p s
    exact verify_signed_stale p s 999699 none 1000000 (by decide)
  · intro p s
    rw [verify_signed_ok p s 999701 none 1000000 (by decide)]
    exact decode_ne_timestamp p
  · intro p s e hdec
    rw [verify_signed_ok p s 999701 none 1000000 (by decide), hdec]

/-- C2 (witness): the freshness facts at concrete inputs. -/
theorem C2_freshness_witness :
    checkFreshness 100 300 399 = true ∧
    verifyWebhookSignature
      ⟨samplePayload, signedHeader 999699 samplePayload "s", "s", none⟩ 1000000
      = .error .TimestampOutOfTolerance ∧
    verifyWebhookSignature
      ⟨samplePayload, signedHeader 999701 samplePayload "s", "s", none⟩ 1000000
      = .ok sampleEvent :=
  ⟨(C2_freshness.1 100 300 399).mpr (by decide),
   C2_freshness.2.1 samplePayload "s",
   C2_freshness.2.2.2 samplePayload "s" sampleEvent (by rfl)⟩

/-- C3: after a successful parse and freshness check,
`verifyWebhookSignature` accepts (hands the payload to the decoder)
when at least one parsed `v1` candidate equals the recomputed expected
MAC — however many other candidates do not match — and fails with
`SignatureMismatch` exactly when no candidate matches. -/
theorem C3_rotation (req : VerificationRequest) (now : Int) (hdr : SignatureHeader)
    (hparse : parseSignatureHeader req.signature = .ok hdr)
    (hfresh : checkFreshness hdr.timestamp
      (req.tolerance.getD DEFAULT_TOLERANCE_SECONDS) now = true) :
    (computeSignature hdr.timestamp req.payload req.secret ∈ hdr.signatures →
      verifyWebhookSignature req now = decode req.payload) ∧
    (computeSignature hdr.timestamp req.payload req.secret ∉ hdr.signatures →
      verifyWebhookSignature req now = .error .SignatureMismatch) := by
  constructor
  · intro hmem
    simp only [verifyWebhookSignature, hparse]
    rw [hfresh]
    simp only [if_true, (any_ct_iff _ _).mpr hmem]
  · intro hmem
    simp only [verifyWebhookSignature, hparse]
    rw [hfresh]
    have hany : (hdr.signatures.any fun c =>
        constantTimeEqual (computeSignature hdr.timestamp req.payload req.secret) c)
        = false := by
      rw [Bool.eq_false_iff]
      intro hcontra
      exact hmem ((any_ct_iff _ _).mp hcontra)
    simp only [if_true, hany, Bool.false_eq_true, if_false]

/-- C3 (witness): a header with two `v1` entries, only the second
matching, still verifies. -/
theorem C3_rotation_witness :
    verifyWebhookSignature
      ⟨samplePayload,
       "t=1700000000,v1=00,v1=" ++ computeSignature 1700000000 samplePayload "s2",
       "s2", none⟩ 1700000000 = .ok sampleEvent := by
  have h := C3_rotation
    ⟨samplePayload,
     "t=1700000000,v1=00,v1=" ++ computeSignature 1700000000 samplePayload "s2",
     "s2", none⟩ 1700000000
    ⟨1700000000, ["00", computeSignature 1700000000 samplePayload "s2"]⟩
    (by rfl) (by decide)
  rw [h.1 (List.mem_cons_of_mem "00" (List.mem_cons_self _ []))]
  rfl

/-- C4: the malformed-header matrix — an empty header fails with
`MissingSignatureHeader`; a header with no `t` element or a non-numeric
`t` fails with `MalformedSignatureHeader`; unknown keys are ignored
rather than causing failure. -/
theorem C4_malformed_headers :
    (∀ (p s : String) (now : Int),
      verifyWebhookSignature ⟨p, "", s, none⟩ now
        = .error .MissingSignatureHeader) ∧
    (∀ (p s : String) (now : Int),
      verifyWebhookSignature ⟨p, "v1=abc", s, none⟩ now
        = .error .MalformedSignatureHeader) ∧
    (∀ (p s : String) (now : Int),
      verifyWebhookSignature ⟨p, "t=abc,v1=xyz", s, none⟩ now
        = .error .MalformedSignatureHeader) ∧
    parseSignatureHeader "t=5,v1=aa,foo=bar" = parseSignatureHeader "t=5,v1=aa" ∧
    parseSignatureHeader "t=5,v1=aa,foo=bar" = .ok ⟨5, ["aa"]⟩ := by
  refine ⟨?_, ?_, ?_, by rfl, by rfl⟩
  · intro p s now
    rfl
  · intro p s now
    rfl
  · intro p s now
    rfl

/-- C5: the candidate comparison used by `verifyWebhookSignature`
(`constantTimeEqual`, built on the scan `ctLoop`) performs exactly one
byte comparison per candidate byte — the full candidate length — so its
comparison count never depends on where the first mismatching byte
occurs; and it decides equality without short-circuiting semantics. -/
theorem C5_constant_time :
    (∀ expected candidate : String,
      (ctLoop expected.toList candidate.toList).2 = candidate.length) ∧
    (∀ expected c1 c2 : String, c1.length = c2.length →
      (ctLoop expected.toList c1.toList).2 = (ctLoop expected.toList c2.toList).2) ∧
    (∀ expected candidate : String,
      constantTimeEqual expected candidate = true ↔ expected = candidate) := by
  refine ⟨?_, ?_, constantTimeEqual_iff⟩
  · intro expected candidate
    exact ctLoop_steps expected.toList candidate.toList
  · intro expected c1 c2 hlen
    rw [ctLoop_steps, ctLoop_steps]
    exact hlen

/-- C5 (witness): equal scan counts for candidates mismatching at
different positions. -/
theorem C5_constant_time_witness :
    (ctLoop "ab".toList "cd".toList).2 = "cd".length ∧
    (ctLoop "ab".toList "xb".toList).2 = (ctLoop "ab".toList "ay".toList).2 ∧
    (constantTimeEqual "ab" "ab" = true ↔ ("ab" : String) = "ab") :=
  ⟨C5_constant_time.1 "ab" "cd",
   C5_constant_time.2.1 "ab" "xb" "ay" (by decide),
   C5_constant_time.2.2 "ab" "ab"⟩

/-- C6: decoding is strict — an unparsable payload fails with
`InvalidPayloadJson`; a parsable payload whose `type` discriminator is
absent or not one of the six known variants fails with
`UnrecognizedEventType`, even under a valid signature; on success the
event carries the payload's required common fields `id`, `type` and
`timestamp`. -/
theorem C6_strict_decoding :
    (∀ p : String, parseJson p = none → decode p = .error .InvalidPayloadJson) ∧
    (∀ (p : String) (j : Json), parseJson p = some j →
      j.lookup "type" = none → decode p = .error .UnrecognizedEventType) ∧
    (∀ (p : String) (j : Json) (t : String), parseJson p = some j →
      j.lookup "type" = some (.str t) → WebhookEventType.ofString? t = none →
      decode p = .error .UnrecognizedEventType) ∧
    (∀ t : String, (WebhookEventType.ofString? t).isSome = true ↔
      (t = "email.sent" ∨ t = "email.delivered" ∨ t = "email.opened" ∨
       t = "email.clicked" ∨ t = "email.bounced" ∨ t = "unsubscribe.created")) ∧
    (∀ (p : String) (e : WebhookEvent), decode p = .ok e →
      ∃ j, parseJson p = some j ∧
        j.lookup "id" = some (.str e.id) ∧
        j.lookup "type" = some (.str e.type.render) ∧
        j.lookup "timestamp" = some (.str e.timestamp)) ∧
    (∀ (s : String) (t : Nat) (now : Int),
      (now - (t : Int)).natAbs ≤ DEFAULT_TOLERANCE_SECONDS →
      verifyWebhookSignature
        ⟨unknownTypePayload, signedHeader t unknownTypePayload s, s, none⟩ now
        = .error .UnrecognizedEventType) := by
  refine ⟨?_, ?_, ?_, ?_, ?_, ?_⟩
  · intro p hp
    unfold decode
    rw [hp]
  · intro p j hp ht
    simp only [decode, hp, ht]
  · intro p j t hp ht hof
    simp only [decode, hp, ht, hof]
  · intro t
    unfold WebhookEventType.ofString?
    split_ifs <;> simp_all
  · intro p e hdec
    unfold decode at hdec
    split at hdec
    · exact absurd hdec (by simp)
    next j hj =>
      split at hdec
      case _ t ht =>
        split at hdec
        · exact absurd hdec (by simp)
        case _ ty hty =>
          split at hdec
          case _ i ts hi hts =>
            injection hdec with hdec
            refine ⟨j, hj, ?_, ?_, ?_⟩
            · rw [← hdec]
              exact hi
            · rw [← hdec, ← ofString_render hty]
              exact ht
            · rw [← hdec]
              exact hts
          · exact absurd hdec (by simp)
      · exact absurd hdec (by simp)
      · exact absurd hdec (by simp)
  · intro s t now hfresh
    rw [verify_signed_ok unknownTypePayload s t none now (by simpa using hfresh)]
    rfl

/-- C6 (witness): the strict-decoding facts at concrete payloads. -/
theorem C6_strict_decoding_witness :
    decode "notjson" = .error .InvalidPayloadJson ∧
    decode "[1]" = .error .UnrecognizedEventType ∧
    decode unknownTypePayload = .error .UnrecognizedEventType ∧
    (WebhookEventType.ofString? "email.bounced").isSome = true ∧
    (∃ j, parseJson samplePayload = some j ∧
      j.lookup "id" = some (.str sampleEvent.id) ∧
      j.lookup "type" = some (.str sampleEvent.type.render) ∧
      j.lookup "timestamp" = some (.str sampleEvent.timestamp)) ∧
    verifyWebhookSignature
      ⟨unknownTypePayload, signedHeader 7 unknownTypePayload "k", "k", none⟩ 7
      = .error .UnrecognizedEventType :=
  ⟨C6_strict_decoding.1 "notjson" (by rfl),
   C6_strict_decoding.2.1 "[1]" (.arr [.num 1]) (by rfl) (by rfl),
   C6_strict_decoding.2.2.1 unknownTypePayload
     (.obj [("id", .str "e"), ("type", .str "unknown.thing"), ("timestamp", .str "1")])
     "unknown.thing" (by rfl) (by rfl) (by rfl),
   (C6_strict_decoding.2.2.2.1 "email.bounced").mpr (by tauto),
   C6_strict_decoding.2.2.2.2.1 samplePayload sampleEvent (by rfl),
   C6_strict_decoding.2.2.2.2.2 "k" 7 7 (by decide)⟩

/-- C7: `computeSignature` is a pure function — syntactically identical
calls are equal — whose output is the lowercase hex encoding (64 hex
characters, i.e. a 256-bit MAC) of the HMAC-SHA-256, keyed by the
secret, of the concatenation of the decimal timestamp, the fixed `"."`
separator and the exact raw payload bytes. -/
theorem C7_computeSignature_pure :
    (∀ (t : Nat) (p s : String),
      computeSignature t p s = computeSignature t p s) ∧
    (∀ (t : Nat) (p s : String),
      computeSignature t p s
        = bytesToHex (hmacSha256 (strBytes s)
            (strBytes (natToString t ++ "." ++ p)))) ∧
    (∀ (t : Nat) (p s : String), (computeSignature t p s).length = 64) ∧
    (∀ (t : Nat) (p s : String), ∀ c ∈ (computeSignature t p s).toList,
      isLowerHexDigit c = true) := by
  refine ⟨fun t p s => rfl, fun t p s => rfl, ?_, ?_⟩
  · intro t p s
    show (bytesToHex (hmacSha256 (strBytes s)
      (strBytes (natToString t ++ "." ++ p)))).length = 64
    rw [bytesToHex_length]
    unfold hmacSha256
    rw [sha256_length]
  · intro t p s c hc
    have hc' : c ∈ (hmacSha256 (strBytes s)
        (strBytes (natToString t ++ "." ++ p))).flatMap
        (fun b => [hexChar (b / 16), hexChar (b % 16)]) := hc
    obtain ⟨b, hb, hcb⟩ := List.mem_flatMap.mp hc'
    have hblt : b < 256 := by
      have : ∀ x ∈ hmacSha256 (strBytes s) (strBytes (natToString t ++ "." ++ p)),
          x < 256 := by
        unfold hmacSha256
        exact sha256_bytes_lt _
      exact this b hb
    rcases List.mem_cons.mp hcb with rfl | hcb
    · exact hexChar_isLowerHex _ (by omega)
    rcases List.mem_cons.mp hcb with rfl | hcb
    · exact hexChar_isLowerHex _ (Nat.mod_lt _ (by norm_num))
    · simp at hcb

/-- C7 (witness): the signature facts at a concrete call. -/
theorem C7_computeSignature_pure_witness :
    computeSignature 0 "" "" = computeSignature 0 "" "" ∧
    (computeSignature 0 "" "").length = 64 ∧
    isLowerHexDigit 'b' = true :=
  ⟨C7_computeSignature_pure.1 0 "" "",
   C7_computeSignature_pure.2.2.1 0 "" "",
   C7_computeSignature_pure.2.2.2 0 "" "" 'b' (by decide)⟩

/-- C8: the default freshness window is the fixed 300 seconds — a
request with no tolerance verifies exactly like one with `some 300` —
and the window is overridable per call: with an explicit tolerance,
`TimestampOutOfTolerance` is reported precisely when the parsed
timestamp misses that supplied window. -/
theorem C8_default_tolerance :
    DEFAULT_TOLERANCE_SECONDS = 300 ∧
    (∀ (p sig s : String) (now : Int),
      verifyWebhookSignature ⟨p, sig, s, none⟩ now
        = verifyWebhookSignature ⟨p, sig, s, some 300⟩ now) ∧
    (∀ (req : VerificationRequest) (now : Int) (hdr : SignatureHeader) (tol : Nat),
      parseSignatureHeader req.signature = .ok hdr →
      req.tolerance = some tol →
      (verifyWebhookSignature req now = .error .TimestampOutOfTolerance ↔
        ¬ (now - (hdr.timestamp : Int)).natAbs ≤ tol)) := by
  refine ⟨rfl, fun p sig s now => rfl, ?_⟩
  intro req now hdr tol hparse htol
  simp only [verifyWebhookSignature, hparse, htol, Option.getD_some]
  cases hfb : checkFreshness hdr.timestamp tol now with
  | false =>
    simp only [Bool.false_eq_true, if_false]
    unfold checkFreshness at hfb
    simp only [true_iff, eq_self_iff_true]
    exact of_decide_eq_false hfb
  | true =>
    simp only [if_true]
    unfold checkFreshness at hfb
    have hfresh : (now - (hdr.timestamp : Int)).natAbs ≤ tol := of_decide_eq_true hfb
    constructor
    · intro hcontra
      split at hcontra
      · exact absurd hcontra (decode_ne_timestamp _)
      · exact absurd hcontra (by simp)
    · intro hcontra
      exact absurd hfresh hcontra

/-- C8 (witness): a call-site tolerance of 5 seconds rejects a
timestamp 90 seconds old even though the default window would admit it. -/
theorem C8_default_tolerance_witness :
    verifyWebhookSignature ⟨"x", "t=10,v1=aa", "s", some 5⟩ 100
      = .error .TimestampOutOfTolerance :=
  (C8_default_tolerance.2.2 ⟨"x", "t=10,v1=aa", "s", some 5⟩ 100
    ⟨10, ["aa"]⟩ 5 (by rfl) rfl).mpr (by decide)

/-- C9: the `Formamail` constructor rejects an absent/empty `apiKey`
with the error `apiKey is required` before building anything; with a
non-empty `apiKey` it constructs a client whose HTTP configuration
defaults `baseUrl` to `https://api.formamail.com` and `timeout` to
30000 when those options are omitted; and `createClient` is exactly
`new Formamail(config)`. -/
theorem C9_constructor :
    (∀ config : FormamailConfig, config.apiKey = "" →
      Formamail.create config = .error "apiKey is required") ∧
    (∀ config : FormamailConfig, config.apiKey ≠ "" →
      config.baseUrl = none → config.timeout = none →
      Formamail.create config = .ok
        { http :=
          { baseUrl := "https://api.formamail.com"
            apiKey := config.apiKey
            timeout := 30000
            headers := config.headers } }) ∧
    (∀ config : FormamailConfig, config.apiKey ≠ "" →
      ∃ c : Formamail, Formamail.create config = .ok c) ∧
    (∀ config : FormamailConfig, createClient config = Formamail.create config) := by
  refine ⟨?_, ?_, ?_, fun config => rfl⟩
  · intro config h
    unfold Formamail.create
    rw [if_pos h]
  · intro config hk hb ht
    unfold Formamail.create
    rw [if_neg hk, hb, ht]
    rfl
  · intro config hk
    refine ⟨{ http :=
      { baseUrl := jsOrString config.baseUrl DEFAULT_BASE_URL
        apiKey := config.apiKey
        timeout := jsOrNat config.timeout DEFAULT_TIMEOUT
        headers := config.headers } }, ?_⟩
    unfold Formamail.create
    rw [if_neg hk]

/-- C9 (witness): the constructor at concrete configurations. -/
theorem C9_constructor_witness :
    Formamail.create ⟨"", none, none, []⟩ = .error "apiKey is required" ∧
    Formamail.create ⟨"key_1", none, none, []⟩ = .ok
      { http :=
        { baseUrl := "https://api.formamail.com"
          apiKey := "key_1"
          timeout := 30000
          headers := [] } } ∧
    createClient ⟨"key_1", none, none, []⟩ = Formamail.create ⟨"key_1", none, none, []⟩ :=
  ⟨C9_constructor.1 ⟨"", none, none, []⟩ rfl,
   C9_constructor.2.1 ⟨"key_1", none, none, []⟩ (by decide) rfl rfl,
   C9_constructor.2.2.2 ⟨"key_1", none, none, []⟩⟩

/-- C10: `sendWithAttachment` issues exactly the request of `send`
called with the same email fields plus a single generated attachment
built from the attachment options; and recipient normalization wraps a
non-array input into a one-element array and turns every bare string
into an `email` object. -/
theorem C10_sendWithAttachment :
    (∀ o : SendWithAttachmentOptions,
      sendWithAttachmentRequest o = sendRequest
        { o.email with
          attachments := some [⟨o.attachmentType, o.attachmentTemplateId,
            o.fileName, o.attachmentVariables⟩] }) ∧
    (∀ o : SendWithAttachmentOptions,
      (sendWithAttachmentRequest o).body.to_ = normalizeRecipients o.email.to_ ∧
      (sendWithAttachmentRequest o).body.cc = o.email.cc.map normalizeRecipients ∧
      (sendWithAttachmentRequest o).body.bcc = o.email.bcc.map normalizeRecipients) ∧
    (∀ s : String, normalizeItem (.str s) = { email := s, name := none }) ∧
    (∀ r : EmailRecipient, normalizeItem (.obj r) = r) ∧
    (∀ item : RecipientItem, normalizeRecipients (.single item) = [normalizeItem item]) ∧
    (∀ items : List RecipientItem,
      normalizeRecipients (.array items) = items.map normalizeItem) :=
  ⟨fun _ => rfl,
   fun _ => ⟨rfl, rfl, rfl⟩,
   fun _ => rfl,
   fun _ => rfl,
   fun _ => rfl,
   fun _ => rfl⟩
